import Mathlib

/-!
# DevHub control surface: a shallow embedding

The handlers of `mcp_server.go` (`handleGetLogs`, `handleSearchLogs`,
`handleServiceControl`) and `killProcessGroup` of `services/service_unix.go`,
translated to Lean functions, with the properties of the log window, the log
search and the restart dispatch proved about them.

Conventions of the embedding:
* a Go `string` is the list of its runes (valid UTF-8 text);
* a Go `int` is an `Int` kept in the 64-bit two-complement range by `wrapInt`
  after every arithmetic operation;
* a Go function that can panic, or a loop, returns an `Option`: `none` stands for
  "did not return normally";
* the `ServiceManager` and the mcp-go request are collaborators whose code is not
  part of the handlers: they are records of the answers they give.
-/

namespace DevHub

/-! ## Go primitives -/

/-- A Go string, as its sequence of runes. -/
abbrev GoString := List Char

/-- Reduction of a mathematical integer to the range of a 64-bit Go `int`. -/
def wrapInt (x : Int) : Int := (x + 2 ^ 63) % 2 ^ 64 - 2 ^ 63

/-- Go `a + b` on `int`. -/
def intAdd (a b : Int) : Int := wrapInt (a + b)

/-- Go `a - b` on `int`. -/
def intSub (a b : Int) : Int := wrapInt (a - b)

/-- Go unary `-a` on `int`. -/
def intNeg (a : Int) : Int := wrapInt (-a)

/-- The values a Go `int` can hold. -/
def InIntRange (x : Int) : Prop := -(2 : Int) ^ 63 ≤ x ∧ x < 2 ^ 63

/-- The values a Go `int32` can hold. -/
def InInt32Range (x : Int) : Prop := -(2 : Int) ^ 31 ≤ x ∧ x < 2 ^ 31

instance (x : Int) : Decidable (InIntRange x) := by unfold InIntRange; infer_instance

instance (x : Int) : Decidable (InInt32Range x) := by unfold InInt32Range; infer_instance

/-- Go `len(xs)`. -/
def goLen {α : Type} (xs : List α) : Int := (xs.length : Int)

/-- Go `xs[i]`: `none` is the index-out-of-range panic. -/
def goIndex {α : Type} (xs : List α) (i : Int) : Option α :=
  if i < 0 then none else xs[i.toNat]?

/-- The verb `%d` of `fmt.Sprintf`. -/
def fmtInt (i : Int) : GoString := (toString i).toList

/-- Go `strings.Split(s, "\n")`: the pieces of `s` between line feeds; always at
least one piece. -/
def stringsSplit : GoString → List GoString
  | [] => [[]]
  | c :: cs =>
    if c = '\n' then [] :: stringsSplit cs
    else
      match stringsSplit cs with
      | [] => [[c]]
      | l :: ls => (c :: l) :: ls

/-- Go `unicode.ToLower`: the ASCII branch is the one of the Go source; above
ASCII the case table `uni` decides. -/
def unicodeToLower (uni : Char → Char) (r : Char) : Char :=
  if r.toNat ≤ 127 then
    if 'A'.toNat ≤ r.toNat ∧ r.toNat ≤ 'Z'.toNat then Char.ofNat (r.toNat + 32) else r
  else uni r

/-- Go `strings.ToLower`. -/
def stringsToLower (uni : Char → Char) (s : GoString) : GoString :=
  s.map (unicodeToLower uni)

/-- Go `strings.HasPrefix`. -/
def stringsHasPrefix : GoString → GoString → Bool
  | _, [] => true
  | [], _ :: _ => false
  | c :: cs, d :: ds => c == d && stringsHasPrefix cs ds

/-- Go `strings.Contains(s, substr)`. -/
def stringsContains : GoString → GoString → Bool
  | [], substr => stringsHasPrefix [] substr
  | c :: cs, substr => stringsHasPrefix (c :: cs) substr || stringsContains cs substr

/-! ## Collaborators -/

/-- The `*mcp.CallToolResult` built by `mcp.NewToolResultText` and
`mcp.NewToolResultError`. -/
structure CallToolResult where
  text : GoString
  isError : Bool
  deriving DecidableEq, Repr

/-- Go `mcp.NewToolResultText`. -/
def NewToolResultText (text : GoString) : CallToolResult := ⟨text, false⟩

/-- Go `mcp.NewToolResultError`. -/
def NewToolResultError (text : GoString) : CallToolResult := ⟨text, true⟩

/-- What a handler returns: the tool result and the Go `error` (`none` is `nil`). -/
structure HandlerReturn where
  result : CallToolResult
  err : Option GoString
  deriving DecidableEq, Repr

/-- One request argument: a JSON number (carried as the `int` that the conversion
`int(f)` of the handler yields) or a value of any other type. -/
inductive ArgValue where
  | number (asInt : Int)
  | other
  deriving DecidableEq, Repr

/-- The `mcp.CallToolRequest`, as the answers of `RequireString` and
`GetArguments`. -/
structure CallToolRequest where
  RequireString : GoString → Except GoString GoString
  GetArguments : GoString → Option ArgValue

/-- The running service returned by `GetService`; `Logs()` is its captured output. -/
structure Service where
  Logs : GoString
  deriving DecidableEq, Repr

/-- The fields of `ServiceInfo` the handlers read. -/
structure ServiceInfo where
  Name : GoString
  Port : GoString
  Status : GoString
  ErrorMsg : GoString
  deriving DecidableEq, Repr

/-- The `ServiceManager`, as the answers it gives to one handler call. -/
structure ServiceManager where
  GetServices : List ServiceInfo
  GetService : GoString → Option Service
  StartService : GoString → Option GoString
  StopService : GoString → Option GoString
  RestartService : Int → Option GoString

/-- A state-changing call issued to the `ServiceManager`. -/
inductive ManagerCall where
  | start (name : GoString)
  | stop (name : GoString)
  | restart (index : Int)
  deriving DecidableEq, Repr

/-! ## handleGetLogs -/

/-- The text of the "not found" error result. -/
def notFoundText (serviceName : GoString) : GoString :=
  "service \x27".toList ++ serviceName ++ "\x27 not found".toList

/-- The integer argument `key`, or `dflt` when absent or not a number. -/
def intArgument (request : CallToolRequest) (key : GoString) (dflt : Int) : Int :=
  match request.GetArguments key with
  | some (ArgValue.number v) => v
  | _ => dflt

/-- Text returned when the window starts past the last line. -/
def noLogsText (serviceName : GoString) (offset : Int) : GoString :=
  "No logs found for ".toList ++ serviceName ++ " with offset ".toList ++ fmtInt offset

/-- Header of the log listing. -/
def logsHeader (serviceName : GoString) (actualLines offset : Int) : GoString :=
  "Logs for ".toList ++ serviceName ++ " (showing ".toList ++ fmtInt actualLines ++
    " lines, offset ".toList ++ fmtInt offset ++ " from end):\n\n".toList

/-- The loop `for i := start; i < end && i < totalLines; i++` of `handleGetLogs`,
from index `i` with the text built so far; the first argument bounds the number
of iterations. -/
def getLogsLoop (logLines : List GoString) (end_ totalLines : Int) :
    Nat → Int → GoString → Option GoString
  | 0, i, result => if i < end_ ∧ i < totalLines then none else some result
  | fuel + 1, i, result =>
    if i < end_ ∧ i < totalLines then
      match goIndex logLines i with
      | none => none
      | some line =>
        getLogsLoop logLines end_ totalLines fuel (intAdd i 1)
          (if line ≠ [] then result ++ line ++ ['\n'] else result)
    else some result

/-- Go `MCPServer.handleGetLogs`. -/
def handleGetLogs (ms : ServiceManager) (request : CallToolRequest) :
    Option HandlerReturn :=
  match request.RequireString "service".toList with
  | Except.error err => some ⟨NewToolResultError err, none⟩
  | Except.ok serviceName =>
    let lines := intArgument request "lines".toList 50
    let offset := intArgument request "offset".toList 0
    match ms.GetService serviceName with
    | none => some ⟨NewToolResultError (notFoundText serviceName), none⟩
    | some service =>
      let logLines := stringsSplit service.Logs
      let totalLines := goLen logLines
      let end0 := intSub totalLines offset
      let end_ := if end0 < 0 then 0 else end0
      let start0 := intSub end_ lines
      let start := if start0 < 0 then 0 else start0
      if start ≥ totalLines then
        some ⟨NewToolResultText (noLogsText serviceName offset), none⟩
      else
        let actualLines := intSub end_ start
        let result := logsHeader serviceName actualLines offset
        (getLogsLoop logLines end_ totalLines (end_ - start).toNat start result).map
          fun text => ⟨NewToolResultText text, none⟩

/-! ## handleSearchLogs -/

/-- The scan `for i, line := range logLines` of `handleSearchLogs`, from the line
of index `i` with the matches collected so far; it stops once `maxResults`
matches are held. -/
def searchLoop (uni : Char → Char) (lowerPattern : GoString) (maxResults : Int) :
    List GoString → Int → List Int → List Int
  | [], _, found => found
  | line :: rest, i, found =>
    if stringsContains (stringsToLower uni line) lowerPattern then
      if goLen (found ++ [i]) ≥ maxResults then found ++ [i]
      else searchLoop uni lowerPattern maxResults rest (i + 1) (found ++ [i])
    else searchLoop uni lowerPattern maxResults rest (i + 1) found

/-- Text returned when no line matches. -/
def noMatchesText (pattern serviceName : GoString) : GoString :=
  "No matches found for pattern \x27".toList ++ pattern ++ "\x27 in ".toList ++
    serviceName ++ " logs".toList

/-- Header of the search result. -/
def foundHeader (count : Int) (pattern serviceName : GoString) : GoString :=
  "Found ".toList ++ fmtInt count ++ " matches for \x27".toList ++ pattern ++
    "\x27 in ".toList ++ serviceName ++ " logs:\n\n".toList

/-- Header of one match window. -/
def matchHeader (lineNumber : Int) : GoString :=
  "--- Match at line ".toList ++ fmtInt lineNumber ++ " ---\n".toList

/-- One printed line of a window: the matched line is marked. -/
def windowLine (marked : Bool) (line : GoString) : GoString :=
  (if marked then ">>> ".toList else "    ".toList) ++ line ++ ['\n']

/-- The loop `for i := start; i < end; i++` of one match window, from index `i`
with the text built so far; the first argument bounds the number of iterations. -/
def windowLoop (logLines : List GoString) (matchIdx end_ : Int) :
    Nat → Int → GoString → Option GoString
  | 0, i, result => if i < end_ then none else some result
  | fuel + 1, i, result =>
    if i < end_ then
      if i < goLen logLines then
        match goIndex logLines i with
        | none => none
        | some line =>
          windowLoop logLines matchIdx end_ fuel (intAdd i 1)
            (result ++ windowLine (decide (i = matchIdx)) line)
      else windowLoop logLines matchIdx end_ fuel (intAdd i 1) result
    else some result

/-- The body of `for _, matchIdx := range matches`: one match window appended to
`result`. -/
def appendMatch (logLines : List GoString) (contextLines : Int) (result : GoString)
    (matchIdx : Int) : Option GoString :=
  let result1 := result ++ matchHeader (intAdd matchIdx 1)
  let start0 := intSub matchIdx contextLines
  let start := if start0 < 0 then 0 else start0
  let end0 := intAdd (intAdd matchIdx contextLines) 1
  let end_ := if end0 > goLen logLines then goLen logLines else end0
  (windowLoop logLines matchIdx end_ (end_ - start).toNat start result1).map
    fun text => text ++ ['\n']

/-- The loop `for _, matchIdx := range matches`. -/
def matchesLoop (logLines : List GoString) (contextLines : Int) :
    List Int → GoString → Option GoString
  | [], result => some result
  | matchIdx :: rest, result =>
    match appendMatch logLines contextLines result matchIdx with
    | none => none
    | some result1 => matchesLoop logLines contextLines rest result1

/-- Go `MCPServer.handleSearchLogs`. -/
def handleSearchLogs (uni : Char → Char) (ms : ServiceManager)
    (request : CallToolRequest) : Option HandlerReturn :=
  match request.RequireString "service".toList with
  | Except.error err => some ⟨NewToolResultError err, none⟩
  | Except.ok serviceName =>
    match request.RequireString "pattern".toList with
    | Except.error err => some ⟨NewToolResultError err, none⟩
    | Except.ok pattern =>
      let contextLines := intArgument request "context_lines".toList 2
      let maxResults := intArgument request "max_results".toList 50
      match ms.GetService serviceName with
      | none => some ⟨NewToolResultError (notFoundText serviceName), none⟩
      | some service =>
        let logLines := stringsSplit service.Logs
        let lowerPattern := stringsToLower uni pattern
        let found := searchLoop uni lowerPattern maxResults logLines 0 []
        if goLen found = 0 then
          some ⟨NewToolResultText (noMatchesText pattern serviceName), none⟩
        else
          let result := foundHeader (goLen found) pattern serviceName
          (matchesLoop logLines contextLines found result).map
            fun text => ⟨NewToolResultText text, none⟩

/-! ## handleServiceControl -/

/-- The loop `for i, s := range services` of the restart case: the index of the
first service named `serviceName`, or `-1`. -/
def findServiceIndex (serviceName : GoString) : List ServiceInfo → Int → Int
  | [], _ => -1
  | s :: rest, i =>
    if s.Name = serviceName then i else findServiceIndex serviceName rest (i + 1)

/-- Go `MCPServer.handleServiceControl`: the value returned and the state-changing
calls issued to the `ServiceManager`, in order. -/
def handleServiceControl (ms : ServiceManager) (request : CallToolRequest) :
    HandlerReturn × List ManagerCall :=
  match request.RequireString "service".toList with
  | Except.error err => (⟨NewToolResultError err, none⟩, [])
  | Except.ok serviceName =>
    match request.RequireString "action".toList with
    | Except.error err => (⟨NewToolResultError err, none⟩, [])
    | Except.ok action =>
      if action = "start".toList then
        match ms.StartService serviceName with
        | some err =>
          (⟨NewToolResultError ("failed to start service: ".toList ++ err), none⟩,
            [ManagerCall.start serviceName])
        | none =>
          (⟨NewToolResultText ("Service \x27".toList ++ serviceName ++
              "\x27 started successfully".toList), none⟩,
            [ManagerCall.start serviceName])
      else if action = "stop".toList then
        match ms.StopService serviceName with
        | some err =>
          (⟨NewToolResultError ("failed to stop service: ".toList ++ err), none⟩,
            [ManagerCall.stop serviceName])
        | none =>
          (⟨NewToolResultText ("Service \x27".toList ++ serviceName ++
              "\x27 stopped successfully".toList), none⟩,
            [ManagerCall.stop serviceName])
      else if action = "restart".toList then
        let services := ms.GetServices
        let serviceIndex := findServiceIndex serviceName services 0
        if serviceIndex = -1 then
          (⟨NewToolResultError (notFoundText serviceName), none⟩, [])
        else
          match ms.RestartService serviceIndex with
          | some err =>
            (⟨NewToolResultError ("failed to restart service: ".toList ++ err), none⟩,
              [ManagerCall.restart serviceIndex])
          | none =>
            (⟨NewToolResultText ("Service \x27".toList ++ serviceName ++
                "\x27 restarted successfully".toList), none⟩,
              [ManagerCall.restart serviceIndex])
      else
        (⟨NewToolResultError ("unknown action: ".toList ++ action), none⟩, [])

/-! ## killProcessGroup -/

/-- One `syscall.Kill(pid, sig)` call. -/
structure KillCall where
  pid : Int
  sig : Int
  deriving DecidableEq, Repr

/-- Go `syscall.SIGKILL`. -/
def SIGKILL : Int := 9

/-- Go conversion `int(x)` of an `int32`. -/
def intOfInt32 (x : Int) : Int := wrapInt x

/-- Go `killProcessGroup` (`services/service_unix.go`): the error returned and the
`syscall.Kill` calls issued, `kill` being the answer of the operating system. -/
def killProcessGroup (kill : Int → Int → Option GoString) (pid : Int) :
    Option GoString × List KillCall :=
  (kill (intNeg (intOfInt32 pid)) SIGKILL, [⟨intNeg (intOfInt32 pid), SIGKILL⟩])


/-! ## Reference notions used in the statements -/

/-- The listing of a sequence of lines: each followed by a line feed. -/
def renderLines : List GoString → GoString
  | [] => []
  | l :: ls => l ++ ['\n'] ++ renderLines ls

/-- The entries of `logLines` with indices `start`, ..., `end_ - 1`. -/
def logWindow (logLines : List GoString) (start end_ : Int) : List GoString :=
  (logLines.drop start.toNat).take (end_ - start).toNat

/-- The non-empty entries of a sequence of lines, in order. -/
def nonEmptyLines (ls : List GoString) : List GoString :=
  ls.filter fun l => decide (l ≠ [])

/-- Whether a log line matches a pattern: the lower-cased pattern is a substring
of the lower-cased line. -/
def lineMatches (uni : Char → Char) (pattern line : GoString) : Prop :=
  stringsToLower uni pattern <:+: stringsToLower uni line

instance (uni : Char → Char) (pattern line : GoString) :
    Decidable (lineMatches uni pattern line) := by
  unfold lineMatches; infer_instance

/-- The indices of all the lines of `logLines` that match `pattern`, in
increasing order. -/
def matchingIndices (uni : Char → Char) (pattern : GoString) (logLines : List GoString) :
    List Int :=
  List.map (fun (j : Nat) => (j : Int))
    ((List.range logLines.length).filter fun j =>
      decide (lineMatches uni pattern (logLines.getD j [])))

/-- The matching indices of the lines of `logLines`, numbered from `i`. -/
def matchesFrom (uni : Char → Char) (pattern : GoString) : List GoString → Int → List Int
  | [], _ => []
  | line :: rest, i =>
    if lineMatches uni pattern line then i :: matchesFrom uni pattern rest (i + 1)
    else matchesFrom uni pattern rest (i + 1)

/-- The text of unmarked context lines. -/
def contextText : List GoString → GoString
  | [] => []
  | l :: ls => windowLine false l ++ contextText ls

/-- The text of the lines `ls`, numbered from `i`, where the line numbered `m` is
the marked one. -/
def markedText (m : Int) : Int → List GoString → GoString
  | _, [] => []
  | i, l :: ls => windowLine (decide (i = m)) l ++ markedText m (i + 1) ls

/-- The window printed for the match at index `m` with `c` context lines: the
header, the lines before, the marked line, the lines after, a blank line. -/
def windowText (L : List GoString) (c m : Int) : GoString :=
  matchHeader (m + 1) ++ contextText (logWindow L (max 0 (m - c)) m) ++
    windowLine true (L.getD m.toNat []) ++
    contextText (logWindow L (m + 1) (min (L.length : Int) (m + c + 1))) ++ ['\n']

/-- The windows printed for a sequence of matches. -/
def windowsText (L : List GoString) (c : Int) : List Int → GoString
  | [] => []
  | m :: rest => windowText L c m ++ windowsText L c rest

/-- An ASCII letter. -/
def isAsciiLetter (c : Char) : Prop :=
  (65 ≤ c.toNat ∧ c.toNat ≤ 90) ∨ (97 ≤ c.toNat ∧ c.toNat ≤ 122)

/-- Two runes that are equal, or the same ASCII letter in the two cases. -/
def caseVariant (x y : Char) : Prop :=
  x = y ∨ (isAsciiLetter x ∧ isAsciiLetter y ∧
    (x.toNat + 32 = y.toNat ∨ y.toNat + 32 = x.toNat))

/-- Two strings that differ only in the case of their ASCII letters. -/
def SameUpToCase (a b : GoString) : Prop := List.Forall₂ caseVariant a b

instance (c : Char) : Decidable (isAsciiLetter c) := by unfold isAsciiLetter; infer_instance

instance (x y : Char) : Decidable (caseVariant x y) := by unfold caseVariant; infer_instance

/-- The upper-case form of an ASCII string: each letter `a`..`z` replaced by its
capital. -/
def asciiToUpper (s : GoString) : GoString :=
  s.map fun c => if 97 ≤ c.toNat ∧ c.toNat ≤ 122 then Char.ofNat (c.toNat - 32) else c

/-- Go `unicode.ToUpper`: the ASCII branch is the one of the Go source; above
ASCII the case table `uni` decides. -/
def unicodeToUpper (uni : Char → Char) (r : Char) : Char :=
  if r.toNat ≤ 127 then
    if 'a'.toNat ≤ r.toNat ∧ r.toNat ≤ 'z'.toNat then Char.ofNat (r.toNat - 32) else r
  else uni r

/-- Go `strings.ToUpper`. -/
def stringsToUpper (uni : Char → Char) (s : GoString) : GoString :=
  s.map (unicodeToUpper uni)

/-- The dotless small i, U+0131. -/
def dotlessI : Char := Char.ofNat 0x131

/-- Entries of the Unicode lower-case table of Go: the capital I with a dot,
U+0130, has the small form `i`, and the Kelvin sign, U+212A, the small form `k`;
the dotless small i, U+0131, is a small letter and is left as it is, as are the
runes not listed. -/
def sampleLowerTable (r : Char) : Char :=
  if r = Char.ofNat 0x130 then 'i' else if r = Char.ofNat 0x212A then 'k' else r

/-- Entries of the Unicode upper-case table of Go: the dotless small i, U+0131,
has the capital `I`, and the long s, U+017F, the capital `S`; the runes not
listed are left as they are. -/
def sampleUpperTable (r : Char) : Char :=
  if r = Char.ofNat 0x131 then 'I' else if r = Char.ofNat 0x17F then 'S' else r

/-! ## Example inputs -/

/-- A manager with the services `db`, `web`, `web`, where `web` has the log text
`logs` and only the restart of index 1 succeeds. -/
def exampleManager (logs : GoString) : ServiceManager where
  GetServices :=
    [⟨"db".toList, [], [], []⟩, ⟨"web".toList, [], [], []⟩, ⟨"web".toList, [], [], []⟩]
  GetService := fun name => if name = "web".toList then some ⟨logs⟩ else none
  StartService := fun _ => none
  StopService := fun _ => none
  RestartService := fun index => if index = 1 then none else some "exit status 1".toList

/-- A request with the given string arguments and number arguments. -/
def exampleRequest (strings : List (GoString × GoString)) (numbers : List (GoString × Int)) :
    CallToolRequest where
  RequireString := fun key =>
    match strings.lookup key with
    | some value => Except.ok value
    | none => Except.error ("required argument \x22".toList ++ key ++ "\x22 not found".toList)
  GetArguments := fun key => (numbers.lookup key).map ArgValue.number

/-- A log of 1024 lines: 1023 lines `a`, then the line `x`. -/
def exampleLongLog : GoString :=
  (List.replicate 1023 "a\n".toList).flatten ++ "x".toList

/-! ## Lemmas -/

theorem wrapInt_of_inRange {x : Int} (h : InIntRange x) : wrapInt x = x := by
  unfold InIntRange at h
  unfold wrapInt
  omega

theorem wrapInt_inRange (x : Int) : InIntRange (wrapInt x) := by
  unfold InIntRange wrapInt
  omega

theorem goIndex_of_lt {α : Type} (xs : List α) (i : Int) (h0 : 0 ≤ i)
    (h : i.toNat < xs.length) : goIndex xs i = some xs[i.toNat] := by
  unfold goIndex
  rw [if_neg (by omega)]
  simp [List.getElem?_eq_getElem h]

theorem logWindow_step (L : List GoString) (i end_ : Int) (h0 : 0 ≤ i) (hlt : i < end_)
    (h : i.toNat < L.length) :
    logWindow L i end_ = L[i.toNat] :: logWindow L (i + 1) end_ := by
  unfold logWindow
  have h1 : (end_ - i).toNat = (end_ - (i + 1)).toNat + 1 := by omega
  have h2 : (i + 1).toNat = i.toNat + 1 := by omega
  rw [h1, h2, List.drop_eq_getElem_cons h, List.take_succ_cons]

theorem logWindow_of_le (L : List GoString) (i end_ : Int) (h : end_ ≤ i) :
    logWindow L i end_ = [] := by
  unfold logWindow
  have h1 : (end_ - i).toNat = 0 := by omega
  rw [h1, List.take_zero]

theorem getLogsLoop_spec (L : List GoString) (end_ : Int) (hend : end_ ≤ (L.length : Int))
    (hlen : (L.length : Int) < 2 ^ 63) :
    ∀ (k : Nat) (i : Int) (result : GoString), 0 ≤ i → (end_ - i).toNat = k →
      getLogsLoop L end_ (goLen L) k i result
        = some (result ++ renderLines (nonEmptyLines (logWindow L i end_))) := by
  intro k
  induction k with
  | zero =>
    intro i result _ hk
    have hle : end_ ≤ i := by omega
    have hc : ¬ (i < end_ ∧ i < goLen L) := by omega
    simp [getLogsLoop, hc, logWindow_of_le L i end_ hle, nonEmptyLines, renderLines]
  | succ k ih =>
    intro i result h0 hk
    have hlt : i < end_ := by omega
    have hn : i.toNat < L.length := by omega
    have hc : i < end_ ∧ i < goLen L := ⟨hlt, by unfold goLen; omega⟩
    have hadd : intAdd i 1 = i + 1 := by
      unfold intAdd
      exact wrapInt_of_inRange (by unfold InIntRange; omega)
    rw [getLogsLoop, if_pos hc, goIndex_of_lt L i h0 hn, hadd]
    simp only []
    rw [ih (i + 1) _ (by omega) (by omega), logWindow_step L i end_ h0 hlt hn]
    by_cases hl : L[i.toNat] = []
    · simp [nonEmptyLines, hl]
    · simp [nonEmptyLines, hl, renderLines, List.append_assoc]

theorem clampZero_eq_max (x : Int) : (if x < 0 then 0 else x) = max 0 x := by
  split <;> omega

theorem nonEmptyLines_length_le (ls : List GoString) :
    (nonEmptyLines ls).length ≤ ls.length :=
  List.length_filter_le _ ls

theorem logWindow_length_le (L : List GoString) (start end_ : Int) :
    (logWindow L start end_).length ≤ (end_ - start).toNat := by
  unfold logWindow
  exact List.length_take_le _ _

/-- The listing of `handleGetLogs` for an existing service, in closed form, for
arguments in the range of `int` with `0 ≤ lines` and `0 ≤ offset`. -/
theorem handleGetLogs_eq (ms : ServiceManager) (request : CallToolRequest)
    (serviceName : GoString) (service : Service) (lines offset : Int)
    (hreq : request.RequireString "service".toList = Except.ok serviceName)
    (hsvc : ms.GetService serviceName = some service)
    (hlinesArg : intArgument request "lines".toList 50 = lines)
    (hoffsetArg : intArgument request "offset".toList 0 = offset)
    (hlines : 0 ≤ lines) (hlinesR : lines < 2 ^ 63)
    (hoffset : 0 ≤ offset) (hoffsetR : offset < 2 ^ 63)
    (hlen : ((stringsSplit service.Logs).length : Int) < 2 ^ 63) :
    handleGetLogs ms request = some ⟨NewToolResultText
      (if ((stringsSplit service.Logs).length : Int)
            ≤ max 0 (max 0 (((stringsSplit service.Logs).length : Int) - offset) - lines) then
        noLogsText serviceName offset
      else
        logsHeader serviceName
            (max 0 (((stringsSplit service.Logs).length : Int) - offset)
              - max 0 (max 0 (((stringsSplit service.Logs).length : Int) - offset) - lines))
            offset ++
          renderLines (nonEmptyLines (logWindow (stringsSplit service.Logs)
            (max 0 (max 0 (((stringsSplit service.Logs).length : Int) - offset) - lines))
            (max 0 (((stringsSplit service.Logs).length : Int) - offset))))), none⟩ := by
  generalize hL : stringsSplit service.Logs = L at hlen ⊢
  have h1 : intSub (goLen L) offset = (L.length : Int) - offset := by
    unfold intSub goLen
    exact wrapInt_of_inRange (by unfold InIntRange; omega)
  have h2 : intSub (max 0 ((L.length : Int) - offset)) lines
      = max 0 ((L.length : Int) - offset) - lines := by
    unfold intSub
    exact wrapInt_of_inRange (by unfold InIntRange; omega)
  have h3 : intSub (max 0 ((L.length : Int) - offset))
        (max 0 (max 0 ((L.length : Int) - offset) - lines))
      = max 0 ((L.length : Int) - offset) - max 0 (max 0 ((L.length : Int) - offset) - lines) := by
    unfold intSub
    exact wrapInt_of_inRange (by unfold InIntRange; omega)
  simp only [handleGetLogs, hreq, hsvc, hlinesArg, hoffsetArg, hL, h1, clampZero_eq_max, h2, h3]
  by_cases hs : (L.length : Int) ≤ max 0 (max 0 ((L.length : Int) - offset) - lines)
  · have hs' : max 0 (max 0 ((L.length : Int) - offset) - lines) ≥ goLen L := hs
    rw [if_pos hs', if_pos hs]
  · have hs' : ¬ max 0 (max 0 ((L.length : Int) - offset) - lines) ≥ goLen L := hs
    rw [if_neg hs', if_neg hs]
    rw [getLogsLoop_spec L _ (by omega) hlen _ _ _ (by omega) rfl]
    rfl

theorem stringsHasPrefix_iff (s p : GoString) : stringsHasPrefix s p = true ↔ p <+: s := by
  induction p generalizing s with
  | nil => simp [stringsHasPrefix]
  | cons d ds ih =>
    cases s with
    | nil => simp [stringsHasPrefix]
    | cons c cs =>
      simp only [stringsHasPrefix, Bool.and_eq_true, beq_iff_eq, ih, List.cons_prefix_cons]
      constructor
      · rintro ⟨h, h2⟩
        exact ⟨h.symm, h2⟩
      · rintro ⟨h, h2⟩
        exact ⟨h.symm, h2⟩

theorem stringsContains_iff (s p : GoString) : stringsContains s p = true ↔ p <:+: s := by
  induction s with
  | nil =>
    simp only [stringsContains, stringsHasPrefix_iff]
    constructor
    · intro h
      exact h.isInfix
    · intro h
      have := List.eq_nil_of_infix_nil h
      subst this
      exact List.prefix_refl _
  | cons c cs ih =>
    simp only [stringsContains, Bool.or_eq_true, stringsHasPrefix_iff, ih, List.infix_cons_iff]

theorem matchesFrom_shift (uni : Char → Char) (pattern : GoString) (L : List GoString)
    (i d : Int) :
    matchesFrom uni pattern L (i + d) = (matchesFrom uni pattern L i).map fun j => j + d := by
  induction L generalizing i with
  | nil => rfl
  | cons line rest ih =>
    have h : i + d + 1 = i + 1 + d := by omega
    by_cases hm : lineMatches uni pattern line
    · simp [matchesFrom, hm, h, ih]
    · simp [matchesFrom, hm, h, ih]

theorem matchesFrom_zero (uni : Char → Char) (pattern : GoString) (L : List GoString) :
    matchesFrom uni pattern L 0 = matchingIndices uni pattern L := by
  induction L with
  | nil => rfl
  | cons line rest ih =>
    have hs := matchesFrom_shift uni pattern rest 0 1
    rw [Int.zero_add] at hs
    unfold matchingIndices at ih ⊢
    rw [List.length_cons, List.range_succ_eq_map, List.filter_cons, List.filter_map]
    have hf : ((fun j => decide (lineMatches uni pattern ((line :: rest).getD j []))) ∘ Nat.succ)
        = fun j => decide (lineMatches uni pattern (rest.getD j [])) := by
      funext j
      simp
    rw [hf]
    by_cases hm : lineMatches uni pattern line
    · simp only [matchesFrom, hm, if_true, Int.zero_add, hs, ih, List.getD_cons_zero,
        decide_True, List.map_cons, List.map_map]
      simp [Function.comp_def]
    · simp only [matchesFrom, hm, if_false, Int.zero_add, hs, ih, List.getD_cons_zero,
        decide_False, List.map_map]
      simp [Function.comp_def]

theorem searchLoop_eq (uni : Char → Char) (pattern : GoString) (maxResults : Int)
    (L : List GoString) :
    ∀ (i : Int) (found : List Int), (found.length : Int) < max 1 maxResults →
      searchLoop uni (stringsToLower uni pattern) maxResults L i found
        = found ++ (matchesFrom uni pattern L i).take
            ((max 1 maxResults).toNat - found.length) := by
  induction L with
  | nil =>
    intro i found _
    simp [searchLoop, matchesFrom]
  | cons line rest ih =>
    intro i found hf
    have hpos : (max 1 maxResults).toNat - found.length
        = ((max 1 maxResults).toNat - (found.length + 1)) + 1 := by omega
    by_cases hm : lineMatches uni pattern line
    · have hc : stringsContains (stringsToLower uni line) (stringsToLower uni pattern) = true :=
        (stringsContains_iff _ _).mpr hm
      rw [searchLoop, if_pos hc]
      simp only [matchesFrom, hm, if_true]
      by_cases hfull : goLen (found ++ [i]) ≥ maxResults
      · rw [if_pos hfull]
        have hlen : (max 1 maxResults).toNat - (found.length + 1) = 0 := by
          unfold goLen at hfull
          rw [List.length_append] at hfull
          simp only [List.length_singleton, Nat.cast_add, Nat.cast_one] at hfull
          omega
        rw [hpos, hlen, List.take_succ_cons, List.take_zero]
      · rw [if_neg hfull]
        have hlt : ((found ++ [i]).length : Int) < max 1 maxResults := by
          unfold goLen at hfull
          omega
        rw [ih (i + 1) (found ++ [i]) hlt, hpos, List.take_succ_cons, List.length_append,
          List.length_singleton, List.append_assoc]
        rfl
    · have hc : ¬ stringsContains (stringsToLower uni line) (stringsToLower uni pattern) = true :=
        fun h => hm ((stringsContains_iff _ _).mp h)
      rw [searchLoop, if_neg hc]
      simp only [matchesFrom, hm, if_false]
      exact ih (i + 1) found hf

/-- The matches found by the scan of `handleSearchLogs`: the first
`max 1 maxResults` matching indices. -/
theorem searchLoop_closed (uni : Char → Char) (pattern : GoString) (maxResults : Int)
    (L : List GoString) :
    searchLoop uni (stringsToLower uni pattern) maxResults L 0 []
      = (matchingIndices uni pattern L).take (max 1 maxResults).toNat := by
  rw [searchLoop_eq uni pattern maxResults L 0 [] (by simp), matchesFrom_zero]
  simp

theorem mem_matchingIndices (uni : Char → Char) (pattern : GoString) (L : List GoString)
    (m : Int) (h : m ∈ matchingIndices uni pattern L) :
    0 ≤ m ∧ m < (L.length : Int) ∧ lineMatches uni pattern (L.getD m.toNat []) := by
  unfold matchingIndices at h
  rw [List.mem_map] at h
  obtain ⟨j, hj, rfl⟩ := h
  rw [List.mem_filter, List.mem_range] at hj
  refine ⟨by omega, by omega, ?_⟩
  simpa using hj.2

theorem mem_searchLoop (uni : Char → Char) (pattern : GoString) (maxResults : Int)
    (L : List GoString) (m : Int)
    (h : m ∈ searchLoop uni (stringsToLower uni pattern) maxResults L 0 []) :
    0 ≤ m ∧ m < (L.length : Int) ∧ lineMatches uni pattern (L.getD m.toNat []) := by
  rw [searchLoop_closed] at h
  exact mem_matchingIndices uni pattern L m (List.mem_of_mem_take h)

theorem markedText_of_lt (m : Int) (ls : List GoString) :
    ∀ i : Int, m < i → markedText m i ls = contextText ls := by
  induction ls with
  | nil => intro i _; rfl
  | cons l ls ih =>
    intro i hi
    have hne : ¬ i = m := by omega
    simp [markedText, contextText, hne, ih (i + 1) (by omega)]

theorem markedText_split (L : List GoString) (m hi : Int) (hm0 : 0 ≤ m)
    (hmn : m.toNat < L.length) (hmhi : m < hi) :
    ∀ (k : Nat) (lo : Int), 0 ≤ lo → (m - lo).toNat = k → lo ≤ m →
      markedText m lo (logWindow L lo hi)
        = contextText (logWindow L lo m) ++ windowLine true L[m.toNat] ++
            contextText (logWindow L (m + 1) hi) := by
  intro k
  induction k with
  | zero =>
    intro lo _ hk hle
    have hlo : lo = m := by omega
    subst hlo
    rw [logWindow_step L lo hi hm0 hmhi hmn, logWindow_of_le L lo lo (le_refl _)]
    simp [markedText, contextText, markedText_of_lt lo _ (lo + 1) (by omega)]
  | succ k ih =>
    intro lo hlo0 hk hle
    have hlt : lo < m := by omega
    have hn : lo.toNat < L.length := by omega
    have hne : ¬ lo = m := by omega
    rw [logWindow_step L lo hi hlo0 (by omega) hn, logWindow_step L lo m hlo0 hlt hn]
    simp [markedText, contextText, hne, ih (lo + 1) (by omega) (by omega) (by omega),
      List.append_assoc]

theorem windowLoop_spec (L : List GoString) (m end_ : Int) (hend : end_ ≤ (L.length : Int))
    (hlen : (L.length : Int) < 2 ^ 63) :
    ∀ (k : Nat) (i : Int) (result : GoString), 0 ≤ i → (end_ - i).toNat = k →
      windowLoop L m end_ k i result
        = some (result ++ markedText m i (logWindow L i end_)) := by
  intro k
  induction k with
  | zero =>
    intro i result _ hk
    have hle : end_ ≤ i := by omega
    have hc : ¬ i < end_ := by omega
    simp [windowLoop, hc, logWindow_of_le L i end_ hle, markedText]
  | succ k ih =>
    intro i result h0 hk
    have hlt : i < end_ := by omega
    have hn : i.toNat < L.length := by omega
    have hc2 : i < goLen L := by unfold goLen; omega
    have hadd : intAdd i 1 = i + 1 := by
      unfold intAdd
      exact wrapInt_of_inRange (by unfold InIntRange; omega)
    rw [windowLoop, if_pos hlt, if_pos hc2, goIndex_of_lt L i h0 hn, hadd]
    simp only []
    rw [ih (i + 1) _ (by omega) (by omega), logWindow_step L i end_ h0 hlt hn]
    simp [markedText, List.append_assoc]

theorem logWindow_length (L : List GoString) (lo hi : Int) (h0 : 0 ≤ lo)
    (hhi : hi ≤ (L.length : Int)) (hle : lo ≤ hi) :
    ((logWindow L lo hi).length : Int) = hi - lo := by
  unfold logWindow
  rw [List.length_take, List.length_drop]
  omega

/-- One match window, in closed form, when `m + c + 1` stays in the range of `int`. -/
theorem appendMatch_eq (L : List GoString) (c m : Int) (result : GoString)
    (hc : 0 ≤ c) (hm0 : 0 ≤ m) (hmn : m < (L.length : Int))
    (hlen : (L.length : Int) < 2 ^ 63) (hbound : m + c + 1 < 2 ^ 63) :
    appendMatch L c result m = some (result ++ windowText L c m) := by
  have h1 : intAdd m 1 = m + 1 := by
    unfold intAdd
    exact wrapInt_of_inRange (by unfold InIntRange; omega)
  have h2 : intSub m c = m - c := by
    unfold intSub
    exact wrapInt_of_inRange (by unfold InIntRange; omega)
  have h3 : intAdd (intAdd m c) 1 = m + c + 1 := by
    unfold intAdd
    rw [wrapInt_of_inRange (x := m + c) (by unfold InIntRange; omega)]
    exact wrapInt_of_inRange (by unfold InIntRange; omega)
  have h4 : (if m + c + 1 > goLen L then goLen L else m + c + 1)
      = min (L.length : Int) (m + c + 1) := by
    unfold goLen
    split <;> omega
  have hmn' : m.toNat < L.length := by omega
  simp only [appendMatch, h1, h2, h3, h4, clampZero_eq_max]
  rw [windowLoop_spec L m _ (by omega) hlen _ _ _ (by omega) rfl]
  rw [markedText_split L m _ hm0 hmn' (by omega) _ _ (by omega) rfl (by omega)]
  simp [windowText, List.getD_eq_getElem?_getD, List.getElem?_eq_getElem hmn', List.append_assoc]

theorem matchesLoop_eq (L : List GoString) (c : Int) (hc : 0 ≤ c)
    (hlen : (L.length : Int) < 2 ^ 63) :
    ∀ (found : List Int) (result : GoString),
      (∀ m ∈ found, 0 ≤ m ∧ m < (L.length : Int) ∧ m + c + 1 < 2 ^ 63) →
      matchesLoop L c found result = some (result ++ windowsText L c found) := by
  intro found
  induction found with
  | nil => intro result _; simp [matchesLoop, windowsText]
  | cons m rest ih =>
    intro result h
    obtain ⟨h0, hn, hb⟩ := h m (List.mem_cons_self _ _)
    rw [matchesLoop, appendMatch_eq L c m result hc h0 hn hlen hb]
    simp only []
    rw [ih _ (fun x hx => h x (List.mem_cons_of_mem _ hx))]
    simp [windowsText, List.append_assoc]

theorem toNat_ofNat_of_lt_128 (n : Nat) (h : n < 128) : (Char.ofNat n).toNat = n := by
  have hv : n.isValidChar := Or.inl (by omega)
  unfold Char.ofNat
  rw [dif_pos hv]
  rfl

theorem unicodeToLower_caseVariant (uni : Char → Char) (x y : Char) (h : caseVariant x y) :
    unicodeToLower uni x = unicodeToLower uni y := by
  have hA : 'A'.toNat = 65 := rfl
  have hZ : 'Z'.toNat = 90 := rfl
  rcases h with h | ⟨hx, hy, h | h⟩
  · rw [h]
  · unfold isAsciiLetter at hx hy
    unfold unicodeToLower
    rw [hA, hZ, if_pos (by omega), if_pos (by omega), if_pos (by omega), if_neg (by omega), h,
      Char.ofNat_toNat]
  · unfold isAsciiLetter at hx hy
    unfold unicodeToLower
    rw [hA, hZ, if_pos (by omega), if_neg (by omega), if_pos (by omega), if_pos (by omega), h,
      Char.ofNat_toNat]

theorem stringsToLower_sameUpToCase (uni : Char → Char) (a b : GoString)
    (h : SameUpToCase a b) : stringsToLower uni a = stringsToLower uni b := by
  unfold SameUpToCase at h
  induction h with
  | nil => rfl
  | cons hxy _ ih =>
    unfold stringsToLower at ih ⊢
    rw [List.map_cons, List.map_cons, ih, unicodeToLower_caseVariant uni _ _ hxy]

theorem caseVariant_newline (x y : Char) (h : caseVariant x y) : x = '\n' ↔ y = '\n' := by
  have hn : '\n'.toNat = 10 := rfl
  rcases h with h | ⟨hx, hy, _⟩
  · rw [h]
  · unfold isAsciiLetter at hx hy
    constructor
    · intro hx'
      rw [hx', hn] at hx
      omega
    · intro hy'
      rw [hy', hn] at hy
      omega

theorem stringsSplit_ne_nil (s : GoString) : stringsSplit s ≠ [] := by
  cases s with
  | nil => simp [stringsSplit]
  | cons c cs =>
    unfold stringsSplit
    split
    · simp
    · split <;> simp

theorem stringsSplit_sameUpToCase (a b : GoString) (h : SameUpToCase a b) :
    List.Forall₂ SameUpToCase (stringsSplit a) (stringsSplit b) := by
  unfold SameUpToCase at h
  induction h with
  | nil => exact List.Forall₂.cons List.Forall₂.nil List.Forall₂.nil
  | @cons x y xs ys hxy _ ih =>
    have hnl := caseVariant_newline x y hxy
    by_cases hx : x = '\n'
    · have hy : y = '\n' := hnl.mp hx
      rw [stringsSplit, if_pos hx, stringsSplit, if_pos hy]
      exact List.Forall₂.cons List.Forall₂.nil ih
    · have hy : ¬ y = '\n' := fun hy => hx (hnl.mpr hy)
      rw [stringsSplit, if_neg hx, stringsSplit, if_neg hy]
      generalize stringsSplit xs = sx at ih ⊢
      generalize stringsSplit ys = sy at ih ⊢
      cases ih with
      | nil =>
        exact List.Forall₂.cons (List.Forall₂.cons hxy List.Forall₂.nil) List.Forall₂.nil
      | cons hl hls =>
        exact List.Forall₂.cons (List.Forall₂.cons hxy hl) hls

theorem searchLoop_sameUpToCase (uni : Char → Char) (lowerPattern : GoString)
    (maxResults : Int) (L L' : List GoString) (h : List.Forall₂ SameUpToCase L L') :
    ∀ (i : Int) (found : List Int),
      searchLoop uni lowerPattern maxResults L i found
        = searchLoop uni lowerPattern maxResults L' i found := by
  induction h with
  | nil => intro i found; rfl
  | cons hl _ ih =>
    intro i found
    rw [searchLoop, searchLoop, stringsToLower_sameUpToCase uni _ _ hl, ih, ih]

theorem matchingIndices_sameUpToCase (uni : Char → Char) (pattern pattern' : GoString)
    (L L' : List GoString) (hp : SameUpToCase pattern pattern')
    (h : List.Forall₂ SameUpToCase L L') :
    matchingIndices uni pattern L = matchingIndices uni pattern' L' := by
  rw [← matchesFrom_zero, ← matchesFrom_zero]
  generalize (0 : Int) = i
  induction h generalizing i with
  | nil => rfl
  | cons hl _ ih =>
    simp only [matchesFrom, lineMatches, stringsToLower_sameUpToCase uni _ _ hl,
      stringsToLower_sameUpToCase uni _ _ hp, ih]

theorem sameUpToCase_asciiToUpper (s : GoString) : SameUpToCase s (asciiToUpper s) := by
  unfold SameUpToCase asciiToUpper
  induction s with
  | nil => exact List.Forall₂.nil
  | cons c cs ih =>
    rw [List.map_cons]
    refine List.Forall₂.cons ?_ ih
    by_cases hc : 97 ≤ c.toNat ∧ c.toNat ≤ 122
    · rw [if_pos hc]
      have hv : (Char.ofNat (c.toNat - 32)).toNat = c.toNat - 32 :=
        toNat_ofNat_of_lt_128 _ (by omega)
      right
      unfold isAsciiLetter
      rw [hv]
      omega
    · rw [if_neg hc]
      exact Or.inl rfl

theorem matchingIndices_pairwise (uni : Char → Char) (pattern : GoString)
    (L : List GoString) : (matchingIndices uni pattern L).Pairwise (· < ·) := by
  unfold matchingIndices
  refine List.Pairwise.map _ ?_ ((List.pairwise_lt_range L.length).filter _)
  intro a b hab
  exact Int.ofNat_lt.mpr hab

theorem matchingIndices_eq_nil (uni : Char → Char) (pattern : GoString) (L : List GoString)
    (h : ∀ line ∈ L, ¬ lineMatches uni pattern line) : matchingIndices uni pattern L = [] := by
  rw [List.eq_nil_iff_forall_not_mem]
  intro m hm
  obtain ⟨h0, hn, hmatch⟩ := mem_matchingIndices uni pattern L m hm
  have hlt : m.toNat < L.length := by omega
  rw [List.getD_eq_getElem?_getD, List.getElem?_eq_getElem hlt] at hmatch
  exact h _ (List.getElem_mem hlt) hmatch

theorem findServiceIndex_none (serviceName : GoString) (services : List ServiceInfo)
    (h : ∀ s ∈ services, s.Name ≠ serviceName) :
    ∀ i : Int, findServiceIndex serviceName services i = -1 := by
  induction services with
  | nil => intro i; rfl
  | cons s rest ih =>
    intro i
    rw [findServiceIndex, if_neg (h s (List.mem_cons_self _ _))]
    exact ih (fun t ht => h t (List.mem_cons_of_mem _ ht)) (i + 1)

theorem findServiceIndex_first (serviceName : GoString) (before : List ServiceInfo)
    (s : ServiceInfo) (after : List ServiceInfo) (hs : s.Name = serviceName)
    (h : ∀ t ∈ before, t.Name ≠ serviceName) :
    ∀ i : Int, findServiceIndex serviceName (before ++ s :: after) i
      = i + (before.length : Int) := by
  induction before with
  | nil => intro i; simp [findServiceIndex, hs]
  | cons t rest ih =>
    intro i
    rw [List.cons_append, findServiceIndex, if_neg (h t (List.mem_cons_self _ _)),
      ih (fun u hu => h u (List.mem_cons_of_mem _ hu)) (i + 1), List.length_cons]
    push_cast
    omega

theorem stringsSplit_replicate (k : Nat) (rest : GoString) :
    stringsSplit ((List.replicate k "a\n".toList).flatten ++ rest)
      = List.replicate k "a".toList ++ stringsSplit rest := by
  induction k with
  | zero => simp
  | succ k ih =>
    rw [List.replicate_succ, List.flatten_cons, List.append_assoc, List.replicate_succ,
      List.cons_append, ← ih]
    generalize (List.replicate k "a\n".toList).flatten ++ rest = tail
    show stringsSplit ('a' :: '\n' :: tail) = ['a'] :: stringsSplit tail
    simp [stringsSplit]

theorem searchLoop_replicate (maxResults : Int) (k : Nat) :
    ∀ i : Int, searchLoop id "x".toList maxResults
        (List.replicate k "a".toList ++ ["x".toList]) i [] = [i + (k : Int)] := by
  have ha : stringsContains (stringsToLower id "a".toList) "x".toList = false := by decide
  have hx : stringsContains (stringsToLower id "x".toList) "x".toList = true := by decide
  induction k with
  | zero =>
    intro i
    rw [List.replicate_zero, List.nil_append, searchLoop, if_pos hx]
    simp [searchLoop]
  | succ k ih =>
    intro i
    rw [List.replicate_succ, List.cons_append, searchLoop, ha]
    simp only [Bool.false_eq_true, if_false]
    rw [ih (i + 1)]
    push_cast
    congr 1
    omega

theorem appendMatch_overflow (L : List GoString) (result : GoString)
    (hL : L.length = 1024) :
    appendMatch L 9223372036854774784 result 1023
      = some (result ++ matchHeader 1024 ++ ['\n']) := by
  have h1 : intAdd 1023 1 = 1024 := by decide
  have h2 : intSub 1023 9223372036854774784 = -9223372036854773761 := by decide
  have h3 : intAdd (intAdd 1023 9223372036854774784) 1 = -9223372036854775808 := by decide
  have h4 : goLen L = 1024 := by unfold goLen; rw [hL]; rfl
  simp [appendMatch, h1, h2, h3, h4, windowLoop]

theorem handleSearchLogs_overflow_eq (uni : Char → Char) (ms : ServiceManager)
    (request : CallToolRequest) (serviceName pattern : GoString) (service : Service)
    (hreq : request.RequireString "service".toList = Except.ok serviceName)
    (hpat : request.RequireString "pattern".toList = Except.ok pattern)
    (hsvc : ms.GetService serviceName = some service)
    (hcArg : intArgument request "context_lines".toList 2 = 9223372036854774784)
    (hfound : searchLoop uni (stringsToLower uni pattern)
      (intArgument request "max_results".toList 50) (stringsSplit service.Logs) 0 [] = [1023])
    (hlen : (stringsSplit service.Logs).length = 1024) :
    handleSearchLogs uni ms request = some ⟨NewToolResultText
      (foundHeader 1 pattern serviceName ++ matchHeader 1024 ++ ['\n']), none⟩ := by
  have hgo : goLen ([1023] : List Int) = 1 := rfl
  have hne : ¬ (1 : Int) = 0 := by decide
  simp only [handleSearchLogs, hreq, hpat, hsvc, hcArg, hfound, hgo, hne, if_false, matchesLoop,
    appendMatch_overflow _ _ hlen]
  rfl

/-- A request without the `service` argument gets the error result of
`RequireString`, and no log is read. -/
theorem handleGetLogs_missing_service :
    handleGetLogs (exampleManager "a".toList) (exampleRequest [] [])
      = some ⟨⟨"required argument \x22service\x22 not found".toList, true⟩, none⟩ := by
  decide

/-! ## The log window of handleGetLogs -/

/-- C1: for an existing service whose log text splits into the `n` lines `L`, and
for `lines ≥ 0` and `offset ≥ 0`, the lines listed by `handleGetLogs` are exactly
the non-empty entries of `L[start .. end - 1]` in their original order, where
`end = max 0 (n - offset)` and `start = max 0 (end - lines)`; at most `lines`
entries are listed and the window ends `offset` entries before the newest. -/
theorem handleGetLogs_window (ms : ServiceManager) (request : CallToolRequest)
    (serviceName : GoString) (service : Service) (lines offset : Int)
    (hreq : request.RequireString "service".toList = Except.ok serviceName)
    (hsvc : ms.GetService serviceName = some service)
    (hlinesArg : intArgument request "lines".toList 50 = lines)
    (hoffsetArg : intArgument request "offset".toList 0 = offset)
    (hlines : 0 ≤ lines) (hlinesR : lines < 2 ^ 63)
    (hoffset : 0 ≤ offset) (hoffsetR : offset < 2 ^ 63)
    (hlen : ((stringsSplit service.Logs).length : Int) < 2 ^ 63) :
    let L := stringsSplit service.Logs
    let n : Int := (L.length : Int)
    let end_ := max 0 (n - offset)
    let start := max 0 (end_ - lines)
    let listed := nonEmptyLines (logWindow L start end_)
    handleGetLogs ms request = some ⟨NewToolResultText
        (if n ≤ start then noLogsText serviceName offset
         else logsHeader serviceName (end_ - start) offset ++ renderLines listed), none⟩
      ∧ (n ≤ start → listed = [])
      ∧ (listed.length : Int) ≤ lines
      ∧ (offset ≤ n → end_ = n - offset) := by
  intro L n end_ start listed
  refine ⟨handleGetLogs_eq ms request serviceName service lines offset hreq hsvc hlinesArg
    hoffsetArg hlines hlinesR hoffset hoffsetR hlen, ?_, ?_, ?_⟩
  · intro hs
    have hw : logWindow L start end_ = [] := logWindow_of_le L start end_ (by omega)
    show nonEmptyLines (logWindow L start end_) = []
    rw [hw]
    rfl
  · have h1 := nonEmptyLines_length_le (logWindow L start end_)
    have h2 := logWindow_length_le L start end_
    have h3 : (listed.length : Int) ≤ ((end_ - start).toNat : Int) := by
      have : listed.length ≤ (end_ - start).toNat := le_trans h1 h2
      exact_mod_cast this
    omega
  · intro h
    omega

/-- C1, at the log `one`, empty line, `two`, `three` (newline-terminated) with
`lines = 2` and `offset = 1`: the lines `two` and `three` are listed. -/
theorem handleGetLogs_window_witness :
    handleGetLogs (exampleManager "one\n\ntwo\nthree\n".toList)
        (exampleRequest [("service".toList, "web".toList)]
          [("lines".toList, 2), ("offset".toList, 1)])
      = some ⟨NewToolResultText
          "Logs for web (showing 2 lines, offset 1 from end):\n\ntwo\nthree\n".toList, none⟩ :=
  (handleGetLogs_window (exampleManager "one\n\ntwo\nthree\n".toList)
    (exampleRequest [("service".toList, "web".toList)]
      [("lines".toList, 2), ("offset".toList, 1)])
    "web".toList ⟨"one\n\ntwo\nthree\n".toList⟩ 2 1 rfl rfl rfl rfl
    (by decide) (by decide) (by decide) (by decide) (by decide)).1

/-- C7: for an existing service with `n` log lines, every `offset ≥ n` and every
value of `lines`, `handleGetLogs` returns a text result that is not an error and
lists no log line (the "No logs found" text, or the header alone), with a nil Go
error. -/
theorem handleGetLogs_offset_past_history (ms : ServiceManager) (request : CallToolRequest)
    (serviceName : GoString) (service : Service) (lines offset : Int)
    (hreq : request.RequireString "service".toList = Except.ok serviceName)
    (hsvc : ms.GetService serviceName = some service)
    (hlinesArg : intArgument request "lines".toList 50 = lines)
    (hoffsetArg : intArgument request "offset".toList 0 = offset)
    (hoffsetR : offset < 2 ^ 63)
    (hlen : ((stringsSplit service.Logs).length : Int) < 2 ^ 63)
    (hpast : ((stringsSplit service.Logs).length : Int) ≤ offset) :
    let n : Int := ((stringsSplit service.Logs).length : Int)
    let start := if intSub 0 lines < 0 then 0 else intSub 0 lines
    handleGetLogs ms request = some ⟨NewToolResultText
        (if n ≤ start then noLogsText serviceName offset
         else logsHeader serviceName (intSub 0 start) offset), none⟩
      ∧ (NewToolResultText
          (if n ≤ start then noLogsText serviceName offset
           else logsHeader serviceName (intSub 0 start) offset)).isError = false := by
  intro n start
  refine ⟨?_, rfl⟩
  have h1 : intSub (goLen (stringsSplit service.Logs)) offset = n - offset := by
    unfold intSub goLen
    exact wrapInt_of_inRange (by unfold InIntRange; omega)
  have h2 : (if n - offset < 0 then (0 : Int) else n - offset) = 0 := by
    split <;> omega
  have hstart : 0 ≤ start := by
    show 0 ≤ (if intSub 0 lines < 0 then 0 else intSub 0 lines)
    split <;> omega
  simp only [handleGetLogs, hreq, hsvc, hlinesArg, hoffsetArg, h1, h2]
  by_cases hs : n ≤ start
  · have hs' : start ≥ goLen (stringsSplit service.Logs) := hs
    rw [if_pos hs', if_pos hs]
  · have hs' : ¬ start ≥ goLen (stringsSplit service.Logs) := hs
    rw [if_neg hs', if_neg hs]
    have hfuel : (0 - start).toNat = 0 := by omega
    have hcond : ¬ (start < 0 ∧ start < goLen (stringsSplit service.Logs)) := by omega
    rw [hfuel, getLogsLoop, if_neg hcond]
    rfl

/-- C7, at a three-line log with `offset = 7` and `lines = -2`. -/
theorem handleGetLogs_offset_past_history_witness :
    handleGetLogs (exampleManager "a\nb\nc".toList)
        (exampleRequest [("service".toList, "web".toList)]
          [("lines".toList, -2), ("offset".toList, 7)])
      = some ⟨NewToolResultText
          "Logs for web (showing -2 lines, offset 7 from end):\n\n".toList, none⟩ :=
  (handleGetLogs_offset_past_history (exampleManager "a\nb\nc".toList)
    (exampleRequest [("service".toList, "web".toList)]
      [("lines".toList, -2), ("offset".toList, 7)])
    "web".toList ⟨"a\nb\nc".toList⟩ (-2) 7 rfl rfl rfl rfl
    (by decide) (by decide) (by decide)).1

/-- C10: the header count of `handleGetLogs` against the lines listed, at the log
`a` followed by a line feed with the default `lines` and `offset`: the header
says 2 lines and the body lists the single line `a`. -/
theorem handleGetLogs_header_count :
    handleGetLogs (exampleManager "a\n".toList)
        (exampleRequest [("service".toList, "web".toList)] [])
      = some ⟨NewToolResultText
          "Logs for web (showing 2 lines, offset 0 from end):\n\na\n".toList, none⟩ := by
  decide

/-! ## The search of handleSearchLogs -/

/-- C2: for every log text, pattern and `maxResults ≥ 1`, the matches reported by
`handleSearchLogs` are exactly the first `min maxResults M` indices, in increasing
order, among the `M` lines whose lower-cased text contains the lower-cased
pattern; no matching line before a reported one is skipped. -/
theorem handleSearchLogs_first_matches (uni : Char → Char) (logText pattern : GoString)
    (maxResults : Int) (hmax : 1 ≤ maxResults) :
    let L := stringsSplit logText
    let all := matchingIndices uni pattern L
    let found := searchLoop uni (stringsToLower uni pattern) maxResults L 0 []
    found = all.take maxResults.toNat
      ∧ (found.length : Int) = min maxResults (all.length : Int)
      ∧ all.Pairwise (· < ·)
      ∧ (∀ r ∈ found, ∀ j ∈ all, j < r → j ∈ found) := by
  intro L all found
  have hfound : found = all.take maxResults.toNat := by
    show searchLoop uni (stringsToLower uni pattern) maxResults L 0 [] = _
    rw [searchLoop_closed]
    have : (max 1 maxResults).toNat = maxResults.toNat := by omega
    rw [this]
  have hsorted : all.Pairwise (· < ·) := matchingIndices_pairwise uni pattern L
  refine ⟨hfound, ?_, hsorted, ?_⟩
  · rw [hfound, List.length_take]
    omega
  · intro r hr j hj hjr
    rw [hfound] at hr ⊢
    rw [← List.take_append_drop maxResults.toNat all] at hj hsorted
    rcases List.mem_append.mp hj with h | h
    · exact h
    · have := (List.pairwise_append.mp hsorted).2.2 r hr j h
      omega

/-- C2, at the log `err 1`, `ok`, `ERR 2`, `Err 3` with the pattern `err` and
`maxResults = 2`: the lines of index 0 and 2 are reported. -/
theorem handleSearchLogs_first_matches_witness :
    searchLoop id (stringsToLower id "err".toList) 2
        (stringsSplit "err 1\nok\nERR 2\nErr 3".toList) 0 [] = [0, 2] :=
  (handleSearchLogs_first_matches id "err 1\nok\nERR 2\nErr 3".toList "err".toList 2
    (by decide)).1

/-- C3: the number of matches reported by `handleSearchLogs` with `max_results = 0`,
at the one-line log `x` and the pattern `x`: one match and one window are
returned. -/
theorem handleSearchLogs_zero_max_results :
    handleSearchLogs id (exampleManager "x".toList)
        (exampleRequest [("service".toList, "web".toList), ("pattern".toList, "x".toList)]
          [("max_results".toList, 0)])
      = some ⟨NewToolResultText
          "Found 1 matches for \x27x\x27 in web logs:\n\n--- Match at line 1 ---\n>>> x\n\n".toList,
          none⟩ := by
  decide

/-- C5, as stated, fails for the log lines: the dotless small i, U+0131, has the
capital `I`, so the one-line logs U+0131 and `I` differ only in the case of a
letter; with the pattern `i` the first has no matching line (U+0131 is its own
lower-case form) and the second matches at index 0, and the handler answers "No
matches found" for the one and "Found 1 matches" for the other. -/
theorem handleSearchLogs_case_unicode_log :
    stringsToUpper sampleUpperTable [dotlessI] = "I".toList
      ∧ matchingIndices sampleLowerTable "i".toList (stringsSplit [dotlessI]) = []
      ∧ matchingIndices sampleLowerTable "i".toList (stringsSplit "I".toList) = [0]
      ∧ handleSearchLogs sampleLowerTable (exampleManager [dotlessI])
          (exampleRequest [("service".toList, "web".toList), ("pattern".toList, "i".toList)] [])
        = some ⟨NewToolResultText "No matches found for pattern \x27i\x27 in web logs".toList,
            none⟩
      ∧ handleSearchLogs sampleLowerTable (exampleManager "I".toList)
          (exampleRequest [("service".toList, "web".toList), ("pattern".toList, "i".toList)] [])
        = some ⟨NewToolResultText
            "Found 1 matches for \x27i\x27 in web logs:\n\n--- Match at line 1 ---\n>>> I\n\n".toList,
            none⟩ := by
  decide

/-- C5, amended: the search is case-insensitive: for every log text and every ASCII
pattern, the matched line indices, and the matches reported for any `maxResults`,
are the same for a pattern that differs only in the case of its letters, and for
a log text that differs only in the case of its ASCII letters (the other runes of
the log left as they are), whatever the case table above ASCII; the upper-cased
pattern is such a variant. -/
theorem handleSearchLogs_case_insensitive (uni : Char → Char)
    (logText logText' pattern pattern' : GoString) (maxResults : Int)
    (_hascii : ∀ c ∈ pattern, c.toNat ≤ 127)
    (hp : SameUpToCase pattern pattern') (hl : SameUpToCase logText logText') :
    matchingIndices uni pattern (stringsSplit logText)
        = matchingIndices uni pattern' (stringsSplit logText')
      ∧ searchLoop uni (stringsToLower uni pattern) maxResults (stringsSplit logText) 0 []
        = searchLoop uni (stringsToLower uni pattern') maxResults (stringsSplit logText') 0 []
      ∧ SameUpToCase pattern (asciiToUpper pattern) := by
  refine ⟨?_, ?_, sameUpToCase_asciiToUpper pattern⟩
  · exact matchingIndices_sameUpToCase uni pattern pattern' _ _ hp
      (stringsSplit_sameUpToCase logText logText' hl)
  · rw [stringsToLower_sameUpToCase uni pattern pattern' hp]
    exact searchLoop_sameUpToCase uni _ maxResults _ _
      (stringsSplit_sameUpToCase logText logText' hl) 0 []

/-- C5 amended, at the patterns `err` and `ERR` and the logs `Err x`, `ok`, `my error`
and `eRR X`, `OK`, `MY ERROR`. -/
theorem handleSearchLogs_case_insensitive_witness :
    matchingIndices id "err".toList (stringsSplit "Err x\nok\nmy error".toList)
        = matchingIndices id "ERR".toList (stringsSplit "eRR X\nOK\nMY ERROR".toList)
      ∧ searchLoop id (stringsToLower id "err".toList) 50
          (stringsSplit "Err x\nok\nmy error".toList) 0 []
        = searchLoop id (stringsToLower id "ERR".toList) 50
          (stringsSplit "eRR X\nOK\nMY ERROR".toList) 0 []
      ∧ SameUpToCase "err".toList (asciiToUpper "err".toList) :=
  handleSearchLogs_case_insensitive id "Err x\nok\nmy error".toList
    "eRR X\nOK\nMY ERROR".toList "err".toList "ERR".toList 50
    (by decide) (by unfold SameUpToCase; decide) (by unfold SameUpToCase; decide)

/-- C6: for an existing service and a pattern that no log line contains
(case-insensitively), `handleSearchLogs` returns the "No matches found" text
result, which is not an error and holds no match window, and a nil Go error, for
every `context_lines` and `max_results`. -/
theorem handleSearchLogs_absent_pattern (uni : Char → Char) (ms : ServiceManager)
    (request : CallToolRequest) (serviceName pattern : GoString) (service : Service)
    (hreq : request.RequireString "service".toList = Except.ok serviceName)
    (hpat : request.RequireString "pattern".toList = Except.ok pattern)
    (hsvc : ms.GetService serviceName = some service)
    (habsent : ∀ line ∈ stringsSplit service.Logs, ¬ lineMatches uni pattern line) :
    handleSearchLogs uni ms request
        = some ⟨NewToolResultText (noMatchesText pattern serviceName), none⟩
      ∧ (NewToolResultText (noMatchesText pattern serviceName)).isError = false := by
  refine ⟨?_, rfl⟩
  have hnone : matchingIndices uni pattern (stringsSplit service.Logs) = [] :=
    matchingIndices_eq_nil uni pattern _ habsent
  simp only [handleSearchLogs, hreq, hpat, hsvc, searchLoop_closed, hnone, List.take_nil]
  rfl

/-- C6, at the log `alpha`, `beta` and the pattern `zz`, with `context_lines = 3`
and `max_results = 0`. -/
theorem handleSearchLogs_absent_pattern_witness :
    handleSearchLogs id (exampleManager "alpha\nbeta".toList)
        (exampleRequest [("service".toList, "web".toList), ("pattern".toList, "zz".toList)]
          [("context_lines".toList, 3), ("max_results".toList, 0)])
      = some ⟨NewToolResultText "No matches found for pattern \x27zz\x27 in web logs".toList,
          none⟩ :=
  (handleSearchLogs_absent_pattern id (exampleManager "alpha\nbeta".toList)
    (exampleRequest [("service".toList, "web".toList), ("pattern".toList, "zz".toList)]
      [("context_lines".toList, 3), ("max_results".toList, 0)])
    "web".toList "zz".toList ⟨"alpha\nbeta".toList⟩ rfl rfl rfl (by decide)).1

/-- C4, as stated, fails: at the 1024-line log whose last line `x` is the only
match (index 1023) and `context_lines = 9223372036854774784`, the sum
`matchIdx + contextLines + 1` wraps around to a negative `end`, and the window
printed for the reported match holds no line at all, not even the marked one. -/
theorem handleSearchLogs_window_overflow :
    handleSearchLogs id (exampleManager exampleLongLog)
        (exampleRequest [("service".toList, "web".toList), ("pattern".toList, "x".toList)]
          [("context_lines".toList, 9223372036854774784)])
      = some ⟨NewToolResultText
          "Found 1 matches for \x27x\x27 in web logs:\n\n--- Match at line 1024 ---\n\n".toList,
          none⟩
    ∧ "Found 1 matches for \x27x\x27 in web logs:\n\n--- Match at line 1024 ---\n\n".toList
      ≠ foundHeader 1 "x".toList "web".toList ++
          windowsText (stringsSplit exampleLongLog) 9223372036854774784 [1023] := by
  constructor
  · have hsplit : stringsSplit exampleLongLog
        = List.replicate 1023 "a".toList ++ ["x".toList] :=
      stringsSplit_replicate 1023 "x".toList
    have hfound : searchLoop id (stringsToLower id "x".toList) 50
        (stringsSplit exampleLongLog) 0 [] = [1023] := by
      rw [hsplit]
      exact searchLoop_replicate 50 1023 0
    have hlen : (stringsSplit exampleLongLog).length = 1024 := by
      rw [hsplit, List.length_append, List.length_replicate]
      rfl
    exact handleSearchLogs_overflow_eq id (exampleManager exampleLongLog) _ "web".toList
      "x".toList ⟨exampleLongLog⟩ rfl rfl rfl rfl hfound hlen
  · intro h
    have hmem : '>' ∈ foundHeader 1 "x".toList "web".toList ++
        windowsText (stringsSplit exampleLongLog) 9223372036854774784 [1023] := by
      generalize stringsSplit exampleLongLog = L
      have hw : '>' ∈ windowLine true (L.getD (1023 : Int).toNat []) := by
        unfold windowLine
        simp
      simp only [windowsText, windowText, List.mem_append]
      tauto
    rw [← h] at hmem
    revert hmem
    decide

/-- C4, amended: for every `contextLines ≥ 0` such that `m + contextLines + 1` stays
below `2 ^ 63` for every reported match `m`, `handleSearchLogs` prints, for each
reported match `m` of the `n`-line log, the header, then exactly the lines of
index `max 0 (m - contextLines)` to `m - 1` unmarked, the line `m` marked with
`>>>`, the lines of index `m + 1` to `min (n - 1) (m + contextLines)` unmarked:
`min contextLines m` lines before, `min contextLines (n - 1 - m)` lines after, at
most `2 * contextLines + 1` lines in all. -/
theorem handleSearchLogs_windows (uni : Char → Char) (ms : ServiceManager)
    (request : CallToolRequest) (serviceName pattern : GoString) (service : Service)
    (c : Int)
    (hreq : request.RequireString "service".toList = Except.ok serviceName)
    (hpat : request.RequireString "pattern".toList = Except.ok pattern)
    (hsvc : ms.GetService serviceName = some service)
    (hcArg : intArgument request "context_lines".toList 2 = c) (hc : 0 ≤ c)
    (hlen : ((stringsSplit service.Logs).length : Int) < 2 ^ 63)
    (hbound : ∀ m ∈ searchLoop uni (stringsToLower uni pattern)
        (intArgument request "max_results".toList 50) (stringsSplit service.Logs) 0 [],
        m + c + 1 < 2 ^ 63) :
    let L := stringsSplit service.Logs
    let n : Int := (L.length : Int)
    let found := searchLoop uni (stringsToLower uni pattern)
      (intArgument request "max_results".toList 50) L 0 []
    handleSearchLogs uni ms request = some ⟨NewToolResultText
        (if found = [] then noMatchesText pattern serviceName
         else foundHeader (found.length : Int) pattern serviceName ++ windowsText L c found),
        none⟩
      ∧ ∀ m ∈ found, 0 ≤ m ∧ m < n
          ∧ ((logWindow L (max 0 (m - c)) m).length : Int) = min c m
          ∧ ((logWindow L (m + 1) (min n (m + c + 1))).length : Int) = min c (n - 1 - m)
          ∧ ((logWindow L (max 0 (m - c)) m).length : Int) + 1
              + ((logWindow L (m + 1) (min n (m + c + 1))).length : Int) ≤ 2 * c + 1 := by
  intro L n found
  have hin : ∀ m ∈ found, 0 ≤ m ∧ m < n := by
    intro m hm
    have := mem_searchLoop uni pattern _ L m hm
    exact ⟨this.1, this.2.1⟩
  constructor
  · simp only [handleSearchLogs, hreq, hpat, hsvc, hcArg]
    by_cases hf : found = []
    · have hz : goLen (searchLoop uni (stringsToLower uni pattern)
          (intArgument request "max_results".toList 50) (stringsSplit service.Logs) 0 []) = 0 := by
        show goLen found = 0
        rw [hf]
        rfl
      rw [if_pos hz, if_pos hf]
    · have hz : ¬ goLen (searchLoop uni (stringsToLower uni pattern)
          (intArgument request "max_results".toList 50) (stringsSplit service.Logs) 0 []) = 0 := by
        show ¬ goLen found = 0
        unfold goLen
        intro h0
        exact hf (List.length_eq_zero.mp (by exact_mod_cast h0))
      rw [if_neg hz, if_neg hf]
      rw [matchesLoop_eq L c hc hlen found _
        (fun m hm => ⟨(hin m hm).1, (hin m hm).2, hbound m hm⟩)]
      rfl
  · intro m hm
    obtain ⟨h0, hn⟩ := hin m hm
    have hb := logWindow_length L (max 0 (m - c)) m (by omega) (by omega) (by omega)
    have ha := logWindow_length L (m + 1) (min n (m + c + 1)) (by omega) (by omega) (by omega)
    refine ⟨h0, hn, ?_, ?_, ?_⟩ <;> omega

/-- C4 amended, at the log `a`, `Err x`, `c`, `d`, `err` with the pattern `ERR` and
`context_lines = 1`: two windows, clamped at the end of the log. -/
theorem handleSearchLogs_windows_witness :
    handleSearchLogs id (exampleManager "a\nErr x\nc\nd\nerr".toList)
        (exampleRequest [("service".toList, "web".toList), ("pattern".toList, "ERR".toList)]
          [("context_lines".toList, 1)])
      = some ⟨NewToolResultText
          ("Found 2 matches for \x27ERR\x27 in web logs:\n\n".toList ++
            "--- Match at line 2 ---\n    a\n>>> Err x\n    c\n\n".toList ++
            "--- Match at line 5 ---\n    d\n>>> err\n\n".toList), none⟩ :=
  (handleSearchLogs_windows id (exampleManager "a\nErr x\nc\nd\nerr".toList)
    (exampleRequest [("service".toList, "web".toList), ("pattern".toList, "ERR".toList)]
      [("context_lines".toList, 1)])
    "web".toList "ERR".toList ⟨"a\nErr x\nc\nd\nerr".toList⟩ 1 rfl rfl rfl rfl
    (by decide) (by decide) (by decide)).1

/-! ## The restart case of handleServiceControl -/

/-- C8: with the action `restart`, if no entry of `GetServices()` has the requested
name, `handleServiceControl` returns the error result whose text is `service`, the
name between single quotes, `not found`, and never calls `RestartService`;
otherwise it calls `RestartService` exactly once, with the index of the first
entry of that name, and reports success exactly when that call returns no
error. -/
theorem handleServiceControl_restart (ms : ServiceManager) (request : CallToolRequest)
    (serviceName : GoString)
    (hreq : request.RequireString "service".toList = Except.ok serviceName)
    (hact : request.RequireString "action".toList = Except.ok "restart".toList) :
    ((∀ s ∈ ms.GetServices, s.Name ≠ serviceName) →
        handleServiceControl ms request
          = (⟨⟨"service \x27".toList ++ serviceName ++ "\x27 not found".toList, true⟩, none⟩, []))
      ∧ ∀ (before : List ServiceInfo) (s : ServiceInfo) (after : List ServiceInfo),
          ms.GetServices = before ++ s :: after → s.Name = serviceName →
          (∀ t ∈ before, t.Name ≠ serviceName) →
          (handleServiceControl ms request).2 = [ManagerCall.restart (before.length : Int)]
            ∧ (handleServiceControl ms request).1.err = none
            ∧ ((handleServiceControl ms request).1.result.isError = false
                ↔ ms.RestartService (before.length : Int) = none)
            ∧ (ms.RestartService (before.length : Int) = none →
                (handleServiceControl ms request).1.result
                  = ⟨"Service \x27".toList ++ serviceName ++
                      "\x27 restarted successfully".toList, false⟩)
            ∧ (∀ err, ms.RestartService (before.length : Int) = some err →
                (handleServiceControl ms request).1.result
                  = ⟨"failed to restart service: ".toList ++ err, true⟩) := by
  have hne1 : ¬ "restart".toList = "start".toList := by decide
  have hne2 : ¬ "restart".toList = "stop".toList := by decide
  constructor
  · intro hnone
    simp only [handleServiceControl, hreq, hact, hne1, hne2, if_false, if_true,
      findServiceIndex_none serviceName _ hnone 0]
    rfl
  · intro before s after hsplit hs hbefore
    have hidx : findServiceIndex serviceName ms.GetServices 0 = (before.length : Int) := by
      rw [hsplit, findServiceIndex_first serviceName before s after hs hbefore 0]
      omega
    have hnot : ¬ (before.length : Int) = -1 := by omega
    simp only [handleServiceControl, hreq, hact, hne1, hne2, if_false, if_true, hidx, hnot]
    cases hr : ms.RestartService (before.length : Int) with
    | none => simp [NewToolResultText]
    | some err => simp [NewToolResultError]

/-- C8, at the services `db`, `web`, `web`: the request to restart `api` gives the
error result `service 'api' not found` and no call; the request to restart `web`
gives one call `RestartService(1)`, which succeeds. -/
theorem handleServiceControl_restart_witness :
    handleServiceControl (exampleManager [])
        (exampleRequest [("service".toList, "api".toList), ("action".toList, "restart".toList)]
          [])
      = (⟨⟨"service \x27api\x27 not found".toList, true⟩, none⟩, [])
    ∧ (handleServiceControl (exampleManager [])
        (exampleRequest [("service".toList, "web".toList), ("action".toList, "restart".toList)]
          [])).2 = [ManagerCall.restart 1]
    ∧ (handleServiceControl (exampleManager [])
        (exampleRequest [("service".toList, "web".toList), ("action".toList, "restart".toList)]
          [])).1.result
      = ⟨"Service \x27web\x27 restarted successfully".toList, false⟩ :=
  have hmiss := (handleServiceControl_restart (exampleManager [])
    (exampleRequest [("service".toList, "api".toList), ("action".toList, "restart".toList)] [])
    "api".toList rfl rfl).1 (by decide)
  have h := (handleServiceControl_restart (exampleManager [])
    (exampleRequest [("service".toList, "web".toList), ("action".toList, "restart".toList)] [])
    "web".toList rfl rfl).2 [⟨"db".toList, [], [], []⟩] ⟨"web".toList, [], [], []⟩
    [⟨"web".toList, [], [], []⟩] rfl rfl (by decide)
  ⟨hmiss, h.1, h.2.2.2.1 rfl⟩

/-! ## killProcessGroup -/

/-- C9: for every `pid > 0` of type `int32`, `killProcessGroup` issues exactly one
kill call, with the signal `SIGKILL` and the target `-pid`: the exact negation of
`pid`, strictly negative, with no wrap-around in the widening to `int`; it
returns what that call returns. -/
theorem killProcessGroup_targets_group (kill : Int → Int → Option GoString) (pid : Int)
    (hpid : 0 < pid) (hrange : InInt32Range pid) :
    killProcessGroup kill pid = (kill (-pid) SIGKILL, [⟨-pid, SIGKILL⟩])
      ∧ -pid < 0 ∧ intOfInt32 pid = pid ∧ SIGKILL = 9 := by
  unfold InInt32Range at hrange
  have h1 : intOfInt32 pid = pid := by
    unfold intOfInt32
    exact wrapInt_of_inRange (by unfold InIntRange; omega)
  have h2 : intNeg pid = -pid := by
    unfold intNeg
    exact wrapInt_of_inRange (by unfold InIntRange; omega)
  refine ⟨?_, by omega, h1, rfl⟩
  unfold killProcessGroup
  rw [h1, h2]

/-- C9, at the largest `int32`, `pid = 2147483647`. -/
theorem killProcessGroup_targets_group_witness :
    killProcessGroup (fun _ _ => none) 2147483647
      = (none, [⟨-2147483647, 9⟩]) :=
  (killProcessGroup_targets_group (fun _ _ => none) 2147483647 (by decide) (by decide)).1

end DevHub
